import Mathlib

/-!
Shallow embedding of the set/piece allocation core of the Textile Order and
Beam Allocation System backend, together with proofs about its claims.

Each table of the persistence collaborator is modelled as a list of rows, the
whole store as a `DB` record, and each repository/service operation as a pure
function from a `DB` to a result paired with the post-state.  Python integers
are modelled as `Int` (they are unbounded), identifiers as `Nat`, strings as
`String`.  Timestamps (`get_ist_timestamp`) are irrelevant to every claim and
are modelled as a `Nat` tick passed in by the caller where the source writes
`updated_at` on a lot row, and omitted on rows where no claim observes them.
-/

namespace Textile

/-- Ground-color selection of order-creation input: a manual ground color name
mapped to one beam color (`ground_colors` entries in
`models/schemas/order.py` and `OrderRepository.create`). -/
structure GroundColor where
  ground_color_name : String
  beam_color_id : Nat
  deriving Repr, DecidableEq

/-- Row of the `design_set_tracking` table (the Ledger), as inserted and
updated by `repositories/design_repository.py`. -/
structure DesignSetTracking where
  order_id : Nat
  design_number : String
  total_sets : Int
  allocated_sets : Int
  remaining_sets : Int
  is_active : Bool
  deriving Repr, DecidableEq

/-- Row of the `design_beam_config` table.  `beam_multiplier` is produced as a
count of ground-color selections, hence a `Nat`. -/
structure DesignBeamConfig where
  order_id : Nat
  design_number : String
  beam_color_id : Nat
  beam_multiplier : Nat
  is_active : Bool
  deriving Repr, DecidableEq

/-- Row of the `lot_register` table, with the columns written by
`repositories/lot_repository.py`. -/
structure LotRegister where
  id : Nat
  lot_number : String
  lot_date : String
  party_id : Nat
  quality_id : Nat
  total_pieces : Int
  bill_number : Option String
  actual_pieces : Option Int
  delivery_date : Option String
  status : String
  notes : Option String
  is_active : Bool
  updated_at : Nat
  deriving Repr, DecidableEq

/-- Row of the legacy piece-level `lot_allocations` table
(`LotRepository.create_lot`). -/
structure LotAllocation where
  lot_id : Nat
  order_id : Nat
  design_number : String
  ground_color_name : String
  beam_color_id : Nat
  allocated_pieces : Int
  is_active : Bool
  deriving Repr, DecidableEq

/-- Row of the set-level `lot_design_allocations` table, exactly the columns
inserted by `LotService.create_lot_from_sets` (the insert carries no
`is_active` column). -/
structure LotDesignAllocationRow where
  lot_id : Nat
  order_id : Nat
  design_number : String
  allocated_sets : Int
  deriving Repr, DecidableEq

/-- The persistence collaborator's state: one list per table touched by the
allocation core, plus the id counter the store uses for new lot rows. -/
structure DB where
  design_set_tracking : List DesignSetTracking
  design_beam_config : List DesignBeamConfig
  lot_register : List LotRegister
  lot_allocations : List LotAllocation
  lot_design_allocations : List LotDesignAllocationRow
  next_lot_id : Nat
  deriving Repr, DecidableEq

instance {ε α : Type} [DecidableEq ε] [DecidableEq α] :
    DecidableEq (Except ε α) := fun x y =>
  match x, y with
  | .ok a, .ok b =>
      if h : a = b then isTrue (by rw [h])
      else isFalse (fun he => by cases he; exact h rfl)
  | .error e, .error f =>
      if h : e = f then isTrue (by rw [h])
      else isFalse (fun he => by cases he; exact h rfl)
  | .ok _, .error _ => isFalse (fun he => by cases he)
  | .error _, .ok _ => isFalse (fun he => by cases he)

/-! Design Tracking Ledger operations (`repositories/design_repository.py`). -/

/-- `DesignRepository.create_design_set_tracking`: inserts a row with
`allocated_sets = 0` and `remaining_sets = total_sets`. -/
def create_design_set_tracking (db : DB) (order_id : Nat) (design_number : String)
    (total_sets : Int) : DB :=
  { db with design_set_tracking :=
      db.design_set_tracking ++
        [{ order_id := order_id, design_number := design_number,
           total_sets := total_sets, allocated_sets := 0,
           remaining_sets := total_sets, is_active := true }] }

/-- `DesignRepository.get_design_set_tracking`: active rows of an order,
optionally restricted to one design number.  The Python truthiness test
(`if design_number:`) skips the design filter when the string is empty.  The
source additionally orders the result by `design_number`; the order is only
observable through `current[0]` in `update_allocated_sets`, where the design
filter is applied and (under the table's one-row-per-key discipline) at most
one row matches, so the sort is the identity there and is omitted here. -/
def get_design_set_tracking (db : DB) (order_id : Nat)
    (design_number : Option String) : List DesignSetTracking :=
  db.design_set_tracking.filter (fun t =>
    t.order_id == order_id && t.is_active &&
      (match design_number with
       | some d => d.isEmpty || t.design_number == d
       | none => true))

/-- Payload of the `ValueError` raised by `update_allocated_sets` on
insufficient capacity: it reports the design, the available `remaining_sets`
and the requested quantity. -/
structure InsufficientSets where
  design_number : String
  available : Int
  requested : Int
  deriving Repr, DecidableEq

/-- `DesignRepository.update_allocated_sets`: reads the current tracking via
`get_design_set_tracking`; returns `ok false` (no change) when no row is
found; raises (`error`, no change) when the new remaining would be negative;
otherwise writes `allocated_sets + sets_to_allocate` and
`remaining_sets - sets_to_allocate` into every row whose `order_id` and
`design_number` match (the SQL update filters on those two columns only,
without an `is_active` condition) and returns whether any row matched. -/
def update_allocated_sets (db : DB) (order_id : Nat) (design_number : String)
    (sets_to_allocate : Int) : Except InsufficientSets Bool × DB :=
  match get_design_set_tracking db order_id (some design_number) with
  | [] => (.ok false, db)
  | tracking :: _ =>
      let new_allocated := tracking.allocated_sets + sets_to_allocate
      let new_remaining := tracking.remaining_sets - sets_to_allocate
      if new_remaining < 0 then
        (.error { design_number := design_number,
                  available := tracking.remaining_sets,
                  requested := sets_to_allocate }, db)
      else
        let rows := db.design_set_tracking.map (fun t =>
          if t.order_id == order_id && t.design_number == design_number then
            { t with allocated_sets := new_allocated,
                     remaining_sets := new_remaining }
          else t)
        let matched := db.design_set_tracking.any (fun t =>
          t.order_id == order_id && t.design_number == design_number)
        (.ok matched, { db with design_set_tracking := rows })

/-! Ledger invariants. -/

/-- Row invariant of the Ledger: the two counters split the total and the
remaining part is never negative. -/
def trackingInvariant (t : DesignSetTracking) : Prop :=
  t.allocated_sets + t.remaining_sets = t.total_sets ∧ 0 ≤ t.remaining_sets

instance (t : DesignSetTracking) : Decidable (trackingInvariant t) := by
  unfold trackingInvariant; infer_instance

/-- Store invariant: every Ledger row satisfies `trackingInvariant`. -/
def ledgerInvariant (db : DB) : Prop :=
  ∀ t ∈ db.design_set_tracking, trackingInvariant t

instance (db : DB) : Decidable (ledgerInvariant db) := by
  unfold ledgerInvariant; exact List.decidableBAll _ _

/-- Key discipline of the `design_set_tracking` table: two rows (active or
not) with the same `(order_id, design_number)` key are the same row.  Order
creation seeds one row per design, so this holds in every reachable store. -/
def ledgerKeyUnique (db : DB) : Prop :=
  ∀ t1 ∈ db.design_set_tracking, ∀ t2 ∈ db.design_set_tracking,
    t1.order_id = t2.order_id → t1.design_number = t2.design_number → t1 = t2

instance (db : DB) : Decidable (ledgerKeyUnique db) := by
  unfold ledgerKeyUnique
  exact List.decidableBAll _ _

/-- Membership in the result of a design-filtered `get_design_set_tracking`
unpacks to membership in the table plus the row's filter facts. -/
theorem mem_get_design_set_tracking {db : DB} {order_id : Nat} {d : String}
    {t : DesignSetTracking} (hd : d.isEmpty = false)
    (h : t ∈ get_design_set_tracking db order_id (some d)) :
    t ∈ db.design_set_tracking ∧ t.order_id = order_id ∧
      t.design_number = d ∧ t.is_active = true := by
  unfold get_design_set_tracking at h
  rw [List.mem_filter] at h
  obtain ⟨hmem, hpred⟩ := h
  simp only [hd, Bool.false_or, Bool.and_eq_true, beq_iff_eq] at hpred
  exact ⟨hmem, hpred.1.1, hpred.2, hpred.1.2⟩

/-- C1: every Design Set Tracking row satisfies
`allocated_sets + remaining_sets = total_sets` and `remaining_sets ≥ 0` after
seeding (the seed writes `allocated_sets = 0`, `remaining_sets = total_sets`),
and the invariant is preserved by every allocate call with a positive
quantity, whether the call succeeds or fails. -/
theorem c1_ledger_invariant (db : DB) (order_id : Nat) (d : String)
    (total n : Int) (htotal : 0 ≤ total) (hd : d.isEmpty = false)
    (hku : ledgerKeyUnique db) (hn : 0 < n) (hinv : ledgerInvariant db) :
    ledgerInvariant (create_design_set_tracking db order_id d total) ∧
    ledgerInvariant (update_allocated_sets db order_id d n).2 := by
  constructor
  · intro t ht
    unfold create_design_set_tracking at ht
    simp only [List.mem_append, List.mem_singleton] at ht
    cases ht with
    | inl h => exact hinv t h
    | inr h => subst h; exact ⟨by simp, htotal⟩
  · unfold update_allocated_sets
    cases hget : get_design_set_tracking db order_id (some d) with
    | nil => exact hinv
    | cons tracking rest =>
        have htrk : tracking ∈ get_design_set_tracking db order_id (some d) := by
          rw [hget]; exact List.mem_cons_self _ _
        obtain ⟨htmem, htoid, htd, _⟩ := mem_get_design_set_tracking hd htrk
        by_cases hneg : tracking.remaining_sets - n < 0
        · simp only [hneg, if_pos, if_true]
          exact hinv
        · simp only [hneg, if_neg, if_false, not_false_eq_true]
          intro t' ht'
          simp only [List.mem_map] at ht'
          obtain ⟨t0, ht0, heq⟩ := ht'
          by_cases hc : t0.order_id == order_id && t0.design_number == d
          · rw [if_pos hc] at heq
            simp only [Bool.and_eq_true, beq_iff_eq] at hc
            have ht0t : t0 = tracking :=
              hku t0 ht0 tracking htmem (by rw [hc.1, htoid]) (by rw [hc.2, htd])
            subst heq
            refine ⟨?_, ?_⟩
            · show tracking.allocated_sets + n + (tracking.remaining_sets - n)
                = t0.total_sets
              rw [ht0t]
              have := (hinv tracking htmem).1
              omega
            · show (0 : Int) ≤ tracking.remaining_sets - n
              omega
          · rw [if_neg hc] at heq
            subst heq
            exact hinv t0 ht0

/-- C1 witness: concrete store on which both parts of the invariant theorem
apply. -/
def dbC1 : DB :=
  { design_set_tracking := [⟨1, "D1", 10, 2, 8, true⟩],
    design_beam_config := [], lot_register := [], lot_allocations := [],
    lot_design_allocations := [], next_lot_id := 1 }

theorem c1_ledger_invariant_witness :
    ledgerInvariant (create_design_set_tracking dbC1 2 "D9" 7) ∧
    ledgerInvariant (update_allocated_sets dbC1 1 "D1" 3).2 :=
  ⟨(c1_ledger_invariant dbC1 2 "D9" 7 3 (by decide) (by decide) (by decide)
      (by decide) (by decide)).1,
    (c1_ledger_invariant dbC1 1 "D1" 7 3 (by decide) (by decide) (by decide)
      (by decide) (by decide)).2⟩

/-- C2: an allocate call requesting more than the remaining sets fails,
carrying the requested and available quantities, and leaves the store (hence
the row's `total_sets`, `allocated_sets`, `remaining_sets`) unchanged. -/
theorem c2_insufficient_fails_unchanged (db : DB) (order_id : Nat) (d : String)
    (n : Int) (t : DesignSetTracking) (ts : List DesignSetTracking)
    (hget : get_design_set_tracking db order_id (some d) = t :: ts)
    (hn : t.remaining_sets < n) :
    update_allocated_sets db order_id d n =
      (.error { design_number := d, available := t.remaining_sets,
                requested := n }, db) := by
  unfold update_allocated_sets
  rw [hget]
  have : t.remaining_sets - n < 0 := by omega
  simp only [this, if_pos, if_true]

/-- C2 witness: the spec's Scenario 2.  A row with `total_sets = 10` receives
`allocate(6)`, then `allocate(5)` fails carrying requested 5 and available 4,
and the remaining stays 4. -/
def dbC2 : DB :=
  { design_set_tracking := [⟨1, "D1", 10, 0, 10, true⟩],
    design_beam_config := [], lot_register := [], lot_allocations := [],
    lot_design_allocations := [], next_lot_id := 1 }

theorem c2_insufficient_fails_unchanged_witness :
    update_allocated_sets (update_allocated_sets dbC2 1 "D1" 6).2 1 "D1" 5 =
      (.error { design_number := "D1", available := 4, requested := 5 },
        (update_allocated_sets dbC2 1 "D1" 6).2) ∧
    (update_allocated_sets dbC2 1 "D1" 6).2.design_set_tracking =
      [⟨1, "D1", 10, 6, 4, true⟩] :=
  ⟨c2_insufficient_fails_unchanged (update_allocated_sets dbC2 1 "D1" 6).2
      1 "D1" 5 ⟨1, "D1", 10, 6, 4, true⟩ [] (by decide) (by decide),
    by decide⟩

/-! Service layer (`services/design_service.py`, `services/lot_service.py`). -/

/-- Result of `DesignService.validate_design_allocation`: the source returns a
dict with a `valid` flag and either an error message (not-found, or
insufficiency quoting the available and requested counts) or the remaining
sets before and after the would-be allocation. -/
inductive ValidationResult where
  | notFound (order_id : Nat) (design_number : String)
  | insufficient (available requested : Int)
  | valid (remaining_sets available_after : Int)
  deriving Repr, DecidableEq

/-- Typed image of the HTTP errors the service layer raises: a 400 for the
`ValueError` of an insufficient allocation, a 404 when no tracking row exists,
and a 400 for a failed pre-write validation in `create_lot_from_sets`. -/
inductive ServiceError where
  | insufficient (e : InsufficientSets)
  | notFound (design_number : String)
  | validationFailed (v : ValidationResult)
  deriving Repr, DecidableEq

/-- `DesignService.allocate_sets`: delegates to `update_allocated_sets`,
mapping `False` to a 404 and the insufficiency `ValueError` to a 400. -/
def allocate_sets (db : DB) (order_id : Nat) (design_number : String)
    (sets_to_allocate : Int) : Except ServiceError Unit × DB :=
  match update_allocated_sets db order_id design_number sets_to_allocate with
  | (.error e, db') => (.error (.insufficient e), db')
  | (.ok true, db') => (.ok (), db')
  | (.ok false, db') => (.error (.notFound design_number), db')

/-- `DesignService.validate_design_allocation`: a read-only sufficiency check
against the current tracking row; it reports not-found, insufficiency with
the available and requested counts, or validity. -/
def validate_design_allocation (db : DB) (order_id : Nat)
    (design_number : String) (requested_sets : Int) : ValidationResult :=
  match get_design_set_tracking db order_id (some design_number) with
  | [] => .notFound order_id design_number
  | tracking :: _ =>
      if tracking.remaining_sets < requested_sets then
        .insufficient tracking.remaining_sets requested_sets
      else
        .valid tracking.remaining_sets
          (tracking.remaining_sets - requested_sets)

/-- One entry of the set-based allocation request
(`models/schemas/design.py`, `LotDesignAllocation`). -/
structure LotDesignAllocation where
  order_id : Nat
  design_number : String
  allocated_sets : Int
  deriving Repr, DecidableEq

/-- The set-based lot creation request
(`models/schemas/design.py`, `LotCreateFromSets`). -/
structure LotCreateFromSets where
  party_id : Nat
  quality_id : Nat
  lot_date : Option String
  lot_number : String
  design_allocations : List LotDesignAllocation
  bill_number : Option String
  actual_pieces : Option Int
  delivery_date : Option String
  notes : Option String
  deriving Repr, DecidableEq

/-- Validation phase of `LotService.create_lot_from_sets`: every entry is
checked with `validate_design_allocation` against the pre-call store, and the
first failure (if any) aborts the request. -/
def validateAllAllocations (db : DB) :
    List LotDesignAllocation → Option ValidationResult
  | [] => none
  | a :: rest =>
      match validate_design_allocation db a.order_id a.design_number
          a.allocated_sets with
      | .valid _ _ => validateAllAllocations db rest
      | failure => some failure

/-- Lot-row insertion performed by `LotUseCase.create_lot` by way of
`LotRepository.create_lot` when `create_lot_from_sets` passes it an empty
`allocations` list: `total_pieces` is the sum over that empty list, hence 0,
status is `PENDING`, and the store assigns the next id.  (The source turns an
absent `lot_date` into the string `"None"` via `str(None)`; no claim observes
the field.) -/
def insertLotRegisterRow (db : DB) (req : LotCreateFromSets) (now : Nat) :
    DB × Nat :=
  let lot : LotRegister :=
    { id := db.next_lot_id, lot_number := req.lot_number,
      lot_date := req.lot_date.getD "None", party_id := req.party_id,
      quality_id := req.quality_id, total_pieces := 0,
      bill_number := req.bill_number, actual_pieces := req.actual_pieces,
      delivery_date := req.delivery_date, status := "PENDING",
      notes := req.notes, is_active := true, updated_at := now }
  ({ db with lot_register := db.lot_register ++ [lot],
             next_lot_id := db.next_lot_id + 1 }, db.next_lot_id)

/-- Write phase of `LotService.create_lot_from_sets`: for each entry, first
insert the `lot_design_allocations` row, then call
`DesignService.allocate_sets`; an exception from the latter propagates,
leaving the rows already written in place. -/
def writeDesignAllocations (db : DB) (lot_id : Nat) :
    List LotDesignAllocation → Except ServiceError Unit × DB
  | [] => (.ok (), db)
  | a :: rest =>
      let db1 := { db with lot_design_allocations :=
        db.lot_design_allocations ++
          [{ lot_id := lot_id, order_id := a.order_id,
             design_number := a.design_number,
             allocated_sets := a.allocated_sets }] }
      match allocate_sets db1 a.order_id a.design_number a.allocated_sets with
      | (.error e, db2) => (.error e, db2)
      | (.ok _, db2) => writeDesignAllocations db2 lot_id rest

/-- `LotService.create_lot_from_sets`: validate every allocation against the
pre-call store, then create the lot row and run the write phase. -/
def create_lot_from_sets (db : DB) (req : LotCreateFromSets) (now : Nat) :
    Except ServiceError Unit × DB :=
  match validateAllAllocations db req.design_allocations with
  | some failure => (.error (.validationFailed failure), db)
  | none =>
      let seeded := insertLotRegisterRow db req now
      writeDesignAllocations seeded.1 seeded.2 req.design_allocations

/-- Store for the C3 counterexample: one design with 5 remaining sets. -/
def dbC3 : DB :=
  { design_set_tracking := [⟨1, "D1", 5, 0, 5, true⟩],
    design_beam_config := [], lot_register := [], lot_allocations := [],
    lot_design_allocations := [], next_lot_id := 1 }

/-- Request for the C3 counterexample: two entries against the same
`(order_id, design_number)`, each within the 5 remaining sets but jointly
exceeding them. -/
def reqC3 : LotCreateFromSets :=
  { party_id := 1, quality_id := 1, lot_date := none, lot_number := "LOT-1",
    design_allocations := [⟨1, "D1", 4⟩, ⟨1, "D1", 4⟩],
    bill_number := none, actual_pieces := none, delivery_date := none,
    notes := none }

/-- C3 counterexample: a createLot request containing an entry that fails with
the insufficiency error does NOT leave the store untouched when the list holds
several entries against the same `(order_id, design_number)`: the request
fails, yet one lot row and two allocation rows are persisted and the Ledger
row is mutated from 5 remaining to 1. -/
theorem c3_counterexample_partial_writes :
    (create_lot_from_sets dbC3 reqC3 0).1 =
      .error (.insufficient { design_number := "D1", available := 1,
                              requested := 4 }) ∧
    (create_lot_from_sets dbC3 reqC3 0).2.lot_register.length = 1 ∧
    (create_lot_from_sets dbC3 reqC3 0).2.lot_design_allocations.length = 2 ∧
    (create_lot_from_sets dbC3 reqC3 0).2.design_set_tracking =
      [⟨1, "D1", 5, 4, 1, true⟩] := by
  decide

/-- C3 (amended): whenever the validation phase of `create_lot_from_sets`
reports a failure for some entry — which is the case in particular whenever an
entry exceeds its design's pre-call remaining sets and the entries target
pairwise distinct designs — the whole request fails with that failure and the
store is completely unchanged: no Ledger mutation, no lot row, no allocation
row. -/
theorem c3_all_or_nothing_on_validation_failure (db : DB)
    (req : LotCreateFromSets) (now : Nat) (failure : ValidationResult)
    (h : validateAllAllocations db req.design_allocations = some failure) :
    create_lot_from_sets db req now =
      (.error (.validationFailed failure), db) := by
  unfold create_lot_from_sets
  rw [h]

/-- Store for the C3 witness (the spec's Scenario 4): designs D1 and D2, D2
with only 5 remaining. -/
def dbC3w : DB :=
  { design_set_tracking := [⟨1, "D1", 10, 0, 10, true⟩, ⟨1, "D2", 5, 0, 5, true⟩],
    design_beam_config := [], lot_register := [], lot_allocations := [],
    lot_design_allocations := [], next_lot_id := 1 }

/-- Request for the C3 witness: D1 asks 4 (sufficient), D2 asks 100 against 5
remaining. -/
def reqC3w : LotCreateFromSets :=
  { party_id := 1, quality_id := 1, lot_date := none, lot_number := "LOT-2",
    design_allocations := [⟨1, "D1", 4⟩, ⟨1, "D2", 100⟩],
    bill_number := none, actual_pieces := none, delivery_date := none,
    notes := none }

theorem c3_all_or_nothing_on_validation_failure_witness :
    create_lot_from_sets dbC3w reqC3w 0 =
      (.error (.validationFailed (.insufficient 5 100)), dbC3w) :=
  c3_all_or_nothing_on_validation_failure dbC3w reqC3w 0
    (.insufficient 5 100) (by decide)

/-! Order Aggregate Builder (`OrderRepository._initialize_design_tracking`,
`OrderRepository._calculate_total_pieces`,
`OrderUseCase.calculate_beam_preview`). -/

/-- Number of ground-color selections of an order mapping to a given beam
color: this count is what the source accumulates per beam id. -/
def beamColorCount (ground_colors : List GroundColor) (beam_color_id : Nat) :
    Nat :=
  (ground_colors.filter (fun g => g.beam_color_id == beam_color_id)).length

/-- One step of the dict accumulation
`design_beam_map[design][beam_id] += 1 or = 1`: a Python dict holds one entry
per key, so the increment touches the single matching entry, and a missing
key is appended with count 1. -/
def bumpCount : List (Nat × Nat) → Nat → List (Nat × Nat)
  | [], b => [(b, 1)]
  | p :: rest, b =>
      if p.1 == b then (p.1, p.2 + 1) :: rest
      else p :: bumpCount rest b

/-- The per-design beam map of `_initialize_design_tracking`: every ground
color applies to every design, so the loop builds the same
beam-id-to-multiplier map for each design; it is accumulated once here. -/
def designBeamMap (ground_colors : List GroundColor) : List (Nat × Nat) :=
  ground_colors.foldl (fun m g => bumpCount m g.beam_color_id) []

theorem designBeamMap_append (G : List GroundColor) (g : GroundColor) :
    designBeamMap (G ++ [g]) = bumpCount (designBeamMap G) g.beam_color_id := by
  unfold designBeamMap
  rw [List.foldl_append]
  rfl

theorem bumpCount_keys (m : List (Nat × Nat)) (b : Nat) :
    (bumpCount m b).map Prod.fst =
      if b ∈ m.map Prod.fst then m.map Prod.fst
      else m.map Prod.fst ++ [b] := by
  induction m with
  | nil => simp [bumpCount]
  | cons p rest ih =>
      by_cases h : p.1 = b
      · simp [bumpCount, h]
      · have hb : (p.1 == b) = false := by simp [h]
        have hbne : b ≠ p.1 := fun he => h he.symm
        by_cases hmem : b ∈ rest.map Prod.fst
        · simp [bumpCount, hb, ih, hmem, hbne]
        · simp [bumpCount, hb, ih, hmem, hbne]

theorem bumpCount_nodupKeys (m : List (Nat × Nat)) (b : Nat)
    (h : (m.map Prod.fst).Nodup) : ((bumpCount m b).map Prod.fst).Nodup := by
  rw [bumpCount_keys]
  split
  · exact h
  · next hb =>
      rw [List.nodup_append]
      exact ⟨h, List.nodup_singleton b, by simpa using hb⟩

theorem bumpCount_sum (m : List (Nat × Nat)) (b : Nat) :
    ((bumpCount m b).map Prod.snd).sum = (m.map Prod.snd).sum + 1 := by
  induction m with
  | nil => simp [bumpCount]
  | cons p rest ih =>
      by_cases h : p.1 = b
      · simp [bumpCount, h]
        omega
      · have hb : (p.1 == b) = false := by simp [h]
        simp [bumpCount, hb, ih]
        omega

theorem bumpCount_val (m : List (Nat × Nat)) (b : Nat) (f : Nat → Nat)
    (hval : ∀ p ∈ m, p.2 = f p.1)
    (hmiss : b ∉ m.map Prod.fst → f b = 0)
    (hnd : (m.map Prod.fst).Nodup) :
    ∀ p' ∈ bumpCount m b, p'.2 = if p'.1 = b then f b + 1 else f p'.1 := by
  induction m with
  | nil =>
      intro p' hp'
      simp only [bumpCount, List.mem_singleton] at hp'
      subst hp'
      simp [hmiss (by simp)]
  | cons p rest ih =>
      rw [List.map_cons, List.nodup_cons] at hnd
      intro p' hp'
      by_cases h : p.1 = b
      · have hb : (p.1 == b) = true := by simp [h]
        rw [show bumpCount (p :: rest) b = (p.1, p.2 + 1) :: rest from by
          simp [bumpCount, hb]] at hp'
        rcases List.mem_cons.mp hp' with h1 | h1
        · subst h1
          simp [h, hval _ (List.mem_cons_self _ _)]
        · have hkey : p'.1 ∈ rest.map Prod.fst := List.mem_map_of_mem _ h1
          have hne : p'.1 ≠ b := by
            intro he
            exact hnd.1 (by rw [h, ← he]; exact hkey)
          simp [hne, hval p' (List.mem_cons_of_mem _ h1)]
      · have hb : (p.1 == b) = false := by simp [h]
        rw [show bumpCount (p :: rest) b = p :: bumpCount rest b from by
          simp [bumpCount, hb]] at hp'
        rcases List.mem_cons.mp hp' with h1 | h1
        · subst h1
          simp [h, hval _ (List.mem_cons_self _ _)]
        · refine ih (fun q hq => hval q (List.mem_cons_of_mem _ hq)) ?_ hnd.2 p' h1
          intro hnb
          apply hmiss
          rw [List.map_cons, List.mem_cons]
          push_neg
          exact ⟨fun he => h he.symm, hnb⟩

/-- A beam color absent from the ground-color selections has count 0. -/
theorem beamColorCount_eq_zero (G : List GroundColor) (b : Nat)
    (h : b ∉ G.map (fun g => g.beam_color_id)) : beamColorCount G b = 0 := by
  unfold beamColorCount
  rw [List.length_eq_zero, List.filter_eq_nil_iff]
  intro g hg
  simp only [beq_iff_eq]
  intro he
  exact h (by rw [← he]; exact List.mem_map_of_mem _ hg)

theorem beamColorCount_append (G : List GroundColor) (g : GroundColor)
    (b : Nat) : beamColorCount (G ++ [g]) b =
      beamColorCount G b + if g.beam_color_id = b then 1 else 0 := by
  unfold beamColorCount
  rw [List.filter_append, List.length_append]
  by_cases h : g.beam_color_id = b
  · simp [h]
  · simp [h]

/-- Characterization of the accumulated beam map: its keys are exactly the
distinct beam ids of the ground-color selections, without duplicates, and the
value of each entry is that beam id's selection count. -/
theorem designBeamMap_spec (G : List GroundColor) :
    ((designBeamMap G).map Prod.fst).Nodup ∧
    (∀ b, b ∈ (designBeamMap G).map Prod.fst ↔
        b ∈ G.map (fun g => g.beam_color_id)) ∧
    (∀ p ∈ designBeamMap G, p.2 = beamColorCount G p.1) := by
  induction G using List.reverseRecOn with
  | nil => simp [designBeamMap]
  | append_singleton G g ih =>
      obtain ⟨ihnd, ihkeys, ihval⟩ := ih
      rw [designBeamMap_append]
      refine ⟨bumpCount_nodupKeys _ _ ihnd, ?_, ?_⟩
      · intro b
        rw [bumpCount_keys]
        rw [List.map_append, List.mem_append]
        split
        · next hmem =>
            constructor
            · intro hb
              exact Or.inl ((ihkeys b).mp hb)
            · rintro (hb | hb)
              · exact (ihkeys b).mpr hb
              · simp only [List.map_cons, List.map_nil, List.mem_singleton] at hb
                rw [hb]
                exact hmem
        · next hmem =>
            rw [List.mem_append]
            constructor
            · rintro (hb | hb)
              · exact Or.inl ((ihkeys b).mp hb)
              · right
                simpa using hb
            · rintro (hb | hb)
              · exact Or.inl ((ihkeys b).mpr hb)
              · right
                simpa using hb
      · intro p hp
        have := bumpCount_val (designBeamMap G) g.beam_color_id
          (beamColorCount G)
          ihval
          (fun hb => beamColorCount_eq_zero G g.beam_color_id
            (fun hc => hb ((ihkeys g.beam_color_id).mpr hc)))
          ihnd p hp
        rw [this, beamColorCount_append]
        by_cases h : p.1 = g.beam_color_id
        · simp [h]
        · have : g.beam_color_id ≠ p.1 := fun he => h he.symm
          simp [h, this]

/-- The beam multipliers of an order sum to the number of its ground-color
selections. -/
theorem designBeamMap_sum (G : List GroundColor) :
    ((designBeamMap G).map Prod.snd).sum = G.length := by
  induction G using List.reverseRecOn with
  | nil => simp [designBeamMap]
  | append_singleton G g ih =>
      rw [designBeamMap_append, bumpCount_sum, ih]
      simp

/-- Tracking row inserted per design by `_initialize_design_tracking`:
`total_sets = order.sets`, `allocated_sets = 0`, `remaining_sets = sets`. -/
def seedTrackingRow (order_id : Nat) (sets : Int)
    (design_number : String) : DesignSetTracking :=
  { order_id := order_id, design_number := design_number, total_sets := sets,
    allocated_sets := 0, remaining_sets := sets, is_active := true }

/-- Beam configuration rows inserted for one design by
`_initialize_design_tracking`: one row per entry of the accumulated beam map
of the order's ground colors. -/
def seedBeamRows (order_id : Nat) (design_number : String)
    (ground_colors : List GroundColor) : List DesignBeamConfig :=
  (designBeamMap ground_colors).map (fun p =>
    { order_id := order_id, design_number := design_number,
      beam_color_id := p.1, beam_multiplier := p.2, is_active := true })

/-- `OrderRepository._initialize_design_tracking`: for every design of the
order, insert one tracking row and the design's beam configuration rows. -/
def initialize_design_tracking (db : DB) (order_id : Nat) (sets : Int)
    (design_numbers : List String) (ground_colors : List GroundColor) : DB :=
  { db with
    design_set_tracking := db.design_set_tracking ++
      design_numbers.map (seedTrackingRow order_id sets),
    design_beam_config := db.design_beam_config ++
      design_numbers.flatMap (fun d => seedBeamRows order_id d ground_colors) }

/-- The seeded beam rows of one design, counted against a
`(order, design, beam)` key predicate, reduce to a count over the beam map. -/
theorem seedBeamRows_countP (order_id : Nat) (d' : String)
    (G : List GroundColor) (d : String) (b : Nat) :
    (seedBeamRows order_id d' G).countP
        (fun c => c.order_id == order_id && c.design_number == d &&
          c.beam_color_id == b) =
      if d' = d then (designBeamMap G).countP (fun p => p.1 == b) else 0 := by
  unfold seedBeamRows
  rw [List.countP_map]
  by_cases hdd : d' = d
  · rw [if_pos hdd]
    apply List.countP_congr
    intro p _
    simp [Function.comp, hdd]
  · rw [if_neg hdd, List.countP_eq_zero]
    intro p _
    simp [Function.comp, hdd]

/-- Counting the key predicate over all designs' seeded beam rows singles out
the one design named in the predicate (designs being deduplicated). -/
theorem seedBeamRows_flatMap_countP (order_id : Nat) (D : List String)
    (G : List GroundColor) (d : String) (b : Nat) (hd : d ∈ D)
    (hD : D.Nodup) :
    ((D.flatMap (fun d' => seedBeamRows order_id d' G)).countP
        (fun c => c.order_id == order_id && c.design_number == d &&
          c.beam_color_id == b)) =
      (designBeamMap G).countP (fun p => p.1 == b) := by
  induction D with
  | nil => cases hd
  | cons a rest ih =>
      rw [List.nodup_cons] at hD
      rw [List.flatMap_cons, List.countP_append]
      rcases List.mem_cons.mp hd with rfl | hmem
      · have hrest : ((rest.flatMap (fun d' => seedBeamRows order_id d' G)).countP
            (fun c => c.order_id == order_id && c.design_number == d &&
              c.beam_color_id == b)) = 0 := by
          rw [List.countP_eq_zero]
          intro c hc
          rw [List.mem_flatMap] at hc
          obtain ⟨d', hd', hcrow⟩ := hc
          have : c.design_number = d' := by
            unfold seedBeamRows at hcrow
            obtain ⟨p, _, rfl⟩ := List.mem_map.mp hcrow
            rfl
          simp only [Bool.and_eq_true, beq_iff_eq, not_and, and_imp]
          intro _ hdes
          rw [this] at hdes
          exact absurd hdes.symm (fun he => hD.1 (he ▸ hd'))
        rw [hrest, seedBeamRows_countP, if_pos rfl, Nat.add_zero]
      · have ha : a ≠ d := fun he => hD.1 (he ▸ hmem)
        rw [seedBeamRows_countP, if_neg ha, ih hmem hD.2, Nat.zero_add]

/-- C4: seeding an order with sets `S`, designs `D` and ground colors `G`
creates, for every design `d` of `D`, exactly one Ledger row keyed
`(order_id, d)` — with `total_sets = S`, `allocated_sets = 0`,
`remaining_sets = S` — and exactly one Beam Configuration row per distinct
beam color of `G`, whose multiplier is the number of ground-color selections
mapping to that beam color; the multiplier map is the same for every design. -/
theorem c4_order_seeding (db : DB) (order_id : Nat) (S : Int)
    (D : List String) (G : List GroundColor) (d : String)
    (hd : d ∈ D) (hD : D.Nodup)
    (hfreshT : ∀ t ∈ db.design_set_tracking, t.order_id ≠ order_id)
    (hfreshB : ∀ c ∈ db.design_beam_config, c.order_id ≠ order_id) :
    ((initialize_design_tracking db order_id S D G).design_set_tracking.countP
        (fun t => t.order_id == order_id && t.design_number == d) = 1) ∧
    (∀ t ∈ (initialize_design_tracking db order_id S D G).design_set_tracking,
        t.order_id = order_id →
          t.total_sets = S ∧ t.allocated_sets = 0 ∧ t.remaining_sets = S) ∧
    (∀ b : Nat,
        (initialize_design_tracking db order_id S D G).design_beam_config.countP
            (fun c => c.order_id == order_id && c.design_number == d &&
              c.beam_color_id == b) =
          if b ∈ G.map (fun g => g.beam_color_id) then 1 else 0) ∧
    (∀ c ∈ (initialize_design_tracking db order_id S D G).design_beam_config,
        c.order_id = order_id →
          c.beam_multiplier = beamColorCount G c.beam_color_id) := by
  obtain ⟨hnd, hkeys, hval⟩ := designBeamMap_spec G
  refine ⟨?_, ?_, ?_, ?_⟩
  · unfold initialize_design_tracking
    rw [List.countP_append]
    have hold : db.design_set_tracking.countP
        (fun t => t.order_id == order_id && t.design_number == d) = 0 := by
      rw [List.countP_eq_zero]
      intro t ht
      simp only [Bool.and_eq_true, beq_iff_eq, not_and]
      intro he
      exact absurd he (hfreshT t ht)
    rw [hold, List.countP_map, Nat.zero_add]
    have h1 : D.countP ((fun t => t.order_id == order_id &&
        t.design_number == d) ∘ seedTrackingRow order_id S) = D.count d := by
      rw [List.count]
      apply List.countP_congr
      intro d' _
      simp [seedTrackingRow, Function.comp]
    rw [h1, List.count_eq_one_of_mem hD hd]
  · intro t ht hoid
    unfold initialize_design_tracking at ht
    rw [List.mem_append] at ht
    rcases ht with h | h
    · exact absurd hoid (hfreshT t h)
    · obtain ⟨d', _, rfl⟩ := List.mem_map.mp h
      exact ⟨rfl, rfl, rfl⟩
  · intro b
    unfold initialize_design_tracking
    rw [List.countP_append]
    have hold : db.design_beam_config.countP
        (fun c => c.order_id == order_id && c.design_number == d &&
          c.beam_color_id == b) = 0 := by
      rw [List.countP_eq_zero]
      intro c hc
      simp only [Bool.and_eq_true, beq_iff_eq, not_and]
      intro he
      exact absurd he.1 (hfreshB c hc)
    rw [hold, Nat.zero_add, seedBeamRows_flatMap_countP order_id D G d b hd hD]
    have hcnt : (designBeamMap G).countP (fun p => p.1 == b) =
        ((designBeamMap G).map Prod.fst).count b := by
      rw [List.count, List.countP_map]
      apply List.countP_congr
      intro p _
      rfl
    rw [hcnt]
    by_cases hb : b ∈ G.map (fun g => g.beam_color_id)
    · rw [if_pos hb]
      exact List.count_eq_one_of_mem hnd ((hkeys b).mpr hb)
    · rw [if_neg hb]
      rw [List.count_eq_zero]
      intro hmem
      exact hb ((hkeys b).mp hmem)
  · intro c hc hoid
    unfold initialize_design_tracking at hc
    rw [List.mem_append] at hc
    rcases hc with h | h
    · exact absurd hoid (hfreshB c h)
    · rw [List.mem_flatMap] at h
      obtain ⟨d', _, hrow⟩ := h
      unfold seedBeamRows at hrow
      obtain ⟨p, hp, rfl⟩ := List.mem_map.mp hrow
      exact hval p hp

/-- C4 witness: the spec's Scenario 1 order shape — designs D1 and D2,
ground colors X and Y on beam 1 and Z on beam 2 — seeded into an empty
store with 10 sets. -/
def dbC4 : DB :=
  { design_set_tracking := [], design_beam_config := [], lot_register := [],
    lot_allocations := [], lot_design_allocations := [], next_lot_id := 1 }

theorem c4_order_seeding_witness :
    ((initialize_design_tracking dbC4 1 10 ["D1", "D2"]
        [⟨"X", 1⟩, ⟨"Y", 1⟩, ⟨"Z", 2⟩]).design_set_tracking.countP
      (fun t => t.order_id == 1 && t.design_number == "D1") = 1) ∧
    (∀ b : Nat, (initialize_design_tracking dbC4 1 10 ["D1", "D2"]
        [⟨"X", 1⟩, ⟨"Y", 1⟩, ⟨"Z", 2⟩]).design_beam_config.countP
          (fun c => c.order_id == 1 && c.design_number == "D1" &&
            c.beam_color_id == b) =
        if b ∈ ([⟨"X", 1⟩, ⟨"Y", 1⟩, ⟨"Z", 2⟩] : List GroundColor).map
            (fun g => g.beam_color_id) then 1 else 0) :=
  ⟨(c4_order_seeding dbC4 1 10 ["D1", "D2"] [⟨"X", 1⟩, ⟨"Y", 1⟩, ⟨"Z", 2⟩]
      "D1" (by decide) (by decide) (by intro t ht; cases ht)
      (by intro c hc; cases hc)).1,
    (c4_order_seeding dbC4 1 10 ["D1", "D2"] [⟨"X", 1⟩, ⟨"Y", 1⟩, ⟨"Z", 2⟩]
      "D1" (by decide) (by decide) (by intro t ht; cases ht)
      (by intro c hc; cases hc)).2.2.1⟩

/-- `OrderRepository._calculate_total_pieces`: reads `sets` and
`total_designs` from the order (the latter is set to `len(design_numbers)` at
creation), counts beam-color occurrences over the order's `order_items` (one
item per ground-color selection, inserted by `OrderRepository.create`), and
returns sets × total_designs × (sum of all beam color counts). -/
def calculate_total_pieces (sets : Int) (design_numbers : List String)
    (ground_colors : List GroundColor) : Int :=
  let total_beam_color_count := ((designBeamMap ground_colors).map Prod.snd).sum
  sets * design_numbers.length * total_beam_color_count

/-- Total of `OrderUseCase.calculate_beam_preview`: per distinct beam color,
pieces = units × total_designs × count, summed over the beam colors (all beam
color ids assumed to resolve through the color master data). -/
def calculate_beam_preview_total (units : Int) (design_numbers : List String)
    (ground_colors : List GroundColor) : Int :=
  ((designBeamMap ground_colors).map (fun p =>
    units * design_numbers.length * (p.2 : Int))).sum

theorem sum_map_mul_cast (a : Int) (l : List (Nat × Nat)) :
    (l.map (fun p => a * (p.2 : Int))).sum = a * ((l.map Prod.snd).sum : Int) := by
  induction l with
  | nil => simp
  | cons p rest ih =>
      simp [ih]
      ring

/-- C5: for an order with sets `S`, non-empty deduplicated designs `D` and
non-empty ground colors `G`, the stored `total_pieces` equals
S × |D| × Σ(beam multipliers), which equals S × |G| × |D|, and the beam
preview total agrees with it. -/
theorem c5_total_pieces_formula (S : Int) (D : List String)
    (G : List GroundColor) (hD : D ≠ []) (hDn : D.Nodup) (hG : G ≠ []) :
    calculate_total_pieces S D G =
        S * (D.length : Int) * (((designBeamMap G).map Prod.snd).sum : Int) ∧
    calculate_total_pieces S D G = S * (G.length : Int) * (D.length : Int) ∧
    calculate_beam_preview_total S D G = calculate_total_pieces S D G := by
  refine ⟨rfl, ?_, ?_⟩
  · unfold calculate_total_pieces
    rw [designBeamMap_sum]
    ring
  · unfold calculate_beam_preview_total calculate_total_pieces
    rw [sum_map_mul_cast]

/-- C5 witness: the spec's Scenario 1 — sets 10, designs D1 and D2, ground
colors X and Y on beam 1 and Z on beam 2 — gives total pieces
10 × 2 × 3 = 60. -/
theorem c5_total_pieces_formula_witness :
    calculate_total_pieces 10 ["D1", "D2"] [⟨"X", 1⟩, ⟨"Y", 1⟩, ⟨"Z", 2⟩] =
        10 * 3 * 2 ∧
    calculate_total_pieces 10 ["D1", "D2"] [⟨"X", 1⟩, ⟨"Y", 1⟩, ⟨"Z", 2⟩] = 60 :=
  ⟨(c5_total_pieces_formula 10 ["D1", "D2"] [⟨"X", 1⟩, ⟨"Y", 1⟩, ⟨"Z", 2⟩]
      (by decide) (by decide) (by decide)).2.1,
    by decide⟩

/-! Reporting Aggregators
(`DesignRepository.get_design_wise_allocation_detail`). -/

/-- `DesignRepository.get_design_beam_config`: active beam configuration rows
of an order, optionally restricted to one design (Python truthiness again
skips the filter on an empty design string); the source also joins beam color
code/name from the colors master table, which is display data outside this
model. -/
def get_design_beam_config (db : DB) (order_id : Nat)
    (design_number : Option String) : List DesignBeamConfig :=
  db.design_beam_config.filter (fun c =>
    c.order_id == order_id && c.is_active &&
      (match design_number with
       | some d => d.isEmpty || c.design_number == d
       | none => true))

/-- One entry of a design's beam-piece breakdown in the design-wise report:
`pieces = remaining_sets × beam_multiplier`. -/
structure BeamPiece where
  beam_color_id : Nat
  beam_multiplier : Nat
  pieces : Int
  deriving Repr, DecidableEq

/-- One row of the design-wise allocation report.  The order-number, party
and quality display columns joined from the orders table are omitted: they
carry no allocation data. -/
structure DesignAllocationDetail where
  order_id : Nat
  design_number : String
  total_sets : Int
  allocated_sets : Int
  remaining_sets : Int
  beam_pieces : List BeamPiece
  deriving Repr, DecidableEq

/-- `DesignRepository.get_design_wise_allocation_detail` without the optional
order/party filters: for every active tracking row, join its beam
configuration rows and compute `pieces = remaining_sets * beam_multiplier`
per beam color. -/
def get_design_wise_allocation_detail (db : DB) :
    List DesignAllocationDetail :=
  (db.design_set_tracking.filter (fun t => t.is_active)).map (fun t =>
    let beam_configs := get_design_beam_config db t.order_id
      (some t.design_number)
    { order_id := t.order_id, design_number := t.design_number,
      total_sets := t.total_sets, allocated_sets := t.allocated_sets,
      remaining_sets := t.remaining_sets,
      beam_pieces := beam_configs.map (fun c =>
        { beam_color_id := c.beam_color_id,
          beam_multiplier := c.beam_multiplier,
          pieces := t.remaining_sets * (c.beam_multiplier : Int) }) })

/-- C6: in the design-wise allocation report, every beam entry of a design
with remaining sets `R` reports `pieces = R × beam_multiplier`, so the
design's total reported remaining pieces equal `R × Σ beam_multiplier` over
its beam colors. -/
theorem c6_design_wise_report_pieces (db : DB)
    (detail : DesignAllocationDetail)
    (hdet : detail ∈ get_design_wise_allocation_detail db) :
    (∀ bp ∈ detail.beam_pieces,
        bp.pieces = detail.remaining_sets * (bp.beam_multiplier : Int)) ∧
    (detail.beam_pieces.map (fun bp => bp.pieces)).sum =
      detail.remaining_sets *
        ((detail.beam_pieces.map (fun bp => (bp.beam_multiplier : Int))).sum) := by
  unfold get_design_wise_allocation_detail at hdet
  obtain ⟨t, _, rfl⟩ := List.mem_map.mp hdet
  constructor
  · intro bp hbp
    simp only [List.mem_map] at hbp
    obtain ⟨c, _, rfl⟩ := hbp
    rfl
  · simp only [List.map_map]
    induction get_design_beam_config db t.order_id (some t.design_number) with
    | nil => simp
    | cons c rest ih =>
        simp only [List.map_cons, List.sum_cons, Function.comp] at ih ⊢
        rw [ih]
        ring

/-- C6 witness: the spec's Scenario 3 — remaining 3, multipliers 2 and 1 —
reports beam pieces 6 and 3. -/
def dbC6 : DB :=
  { design_set_tracking := [⟨1, "D1", 10, 7, 3, true⟩],
    design_beam_config := [⟨1, "D1", 1, 2, true⟩, ⟨1, "D1", 2, 1, true⟩],
    lot_register := [], lot_allocations := [], lot_design_allocations := [],
    next_lot_id := 1 }

theorem c6_design_wise_report_pieces_witness :
    (∀ bp ∈ (DesignAllocationDetail.mk 1 "D1" 10 7 3
        [⟨1, 2, 6⟩, ⟨2, 1, 3⟩]).beam_pieces,
      bp.pieces = (3 : Int) * (bp.beam_multiplier : Int)) ∧
    ((get_design_wise_allocation_detail dbC6).map
        (fun d => d.beam_pieces.map (fun bp => bp.pieces))) = [[6, 3]] :=
  ⟨(c6_design_wise_report_pieces dbC6
      (DesignAllocationDetail.mk 1 "D1" 10 7 3 [⟨1, 2, 6⟩, ⟨2, 1, 3⟩])
      (by decide)).1,
    by decide⟩

/-! Request schema validation (`models/schemas/design.py`,
`models/schemas/lot.py`). -/

/-- Field constraints of the `LotDesignAllocation` schema: `allocated_sets`
carries `gt=0`. -/
def lotDesignAllocationSchemaOk (a : LotDesignAllocation) : Bool :=
  0 < a.allocated_sets

/-- Field constraints of the `LotCreateFromSets` schema: `lot_number` has
`min_length=1`, `design_allocations` has `min_items=1`, and every entry must
satisfy its own constraints.  The schema performs no duplicate check. -/
def lotCreateFromSetsSchemaOk (req : LotCreateFromSets) : Bool :=
  decide (1 ≤ req.lot_number.length) &&
    decide (1 ≤ req.design_allocations.length) &&
    req.design_allocations.all lotDesignAllocationSchemaOk

/-- One entry of the legacy piece-based `LotCreate.allocations` field
(`models/schemas/lot.py`, `LotAllocationItem`). -/
structure LotAllocationItem where
  order_id : Nat
  design_number : String
  ground_color_name : String
  beam_color_id : Nat
  allocated_pieces : Int
  deriving Repr, DecidableEq

/-- Duplicate scan of `LotCreate.validate_allocations`: the seen-set loop
rejects a second entry with the same
`(order_id, design_number, ground_color_name)` key. -/
def allocationsDuplicateFree : List LotAllocationItem → Bool
  | [] => true
  | a :: rest =>
      !(rest.any (fun b => b.order_id == a.order_id &&
          b.design_number == a.design_number &&
          b.ground_color_name == a.ground_color_name)) &&
        allocationsDuplicateFree rest

/-- `LotCreate.validate_allocations`: at least one allocation, and no
duplicate `(order_id, design_number, ground_color_name)` key. -/
def lotCreateAllocationsOk (v : List LotAllocationItem) : Bool :=
  !v.isEmpty && allocationsDuplicateFree v

/-- Error surface of the set-based createLot endpoint: the 422-equivalent
schema rejection raised by the request model before the service runs, or a
service-level failure. -/
inductive EndpointError where
  | schemaValidation
  | service (e : ServiceError)
  deriving Repr, DecidableEq

/-- The set-based createLot endpoint: the request schema
(`LotCreateFromSets`) validates first — with no store access and no mutation
— then `LotService.create_lot_from_sets` runs. -/
def create_lot_from_sets_endpoint (db : DB) (req : LotCreateFromSets)
    (now : Nat) : Except EndpointError Unit × DB :=
  if lotCreateFromSetsSchemaOk req then
    match create_lot_from_sets db req now with
    | (.ok u, db') => (.ok u, db')
    | (.error e, db') => (.error (.service e), db')
  else (.error .schemaValidation, db)

/-- Store for the C7 counterexample: one design with 10 remaining sets. -/
def dbC7 : DB :=
  { design_set_tracking := [⟨1, "D1", 10, 0, 10, true⟩],
    design_beam_config := [], lot_register := [], lot_allocations := [],
    lot_design_allocations := [], next_lot_id := 1 }

/-- Request for the C7 counterexample: two entries for the same allocation
target `(order 1, design D1)`. -/
def reqC7 : LotCreateFromSets :=
  { party_id := 1, quality_id := 1, lot_date := none, lot_number := "LOT-7",
    design_allocations := [⟨1, "D1", 2⟩, ⟨1, "D1", 3⟩],
    bill_number := none, actual_pieces := none, delivery_date := none,
    notes := none }

/-- C7 counterexample: a set-based createLot request with two entries for the
same `(order_id, design_number)` passes schema validation — the set-based
schema has no duplicate check — and the request then succeeds and mutates the
Ledger, instead of failing with a ValidationError before any mutation. -/
theorem c7_counterexample_duplicates_accepted :
    lotCreateFromSetsSchemaOk reqC7 = true ∧
    (create_lot_from_sets_endpoint dbC7 reqC7 0).1 = .ok () ∧
    (create_lot_from_sets_endpoint dbC7 reqC7 0).2.design_set_tracking =
      [⟨1, "D1", 10, 5, 5, true⟩] := by
  decide

/-- C7 (amended): an empty allocation list is rejected by the set-based
schema with a ValidationError before any store access or mutation; the
duplicate-allocations rejection exists only on the legacy piece-based
`LotCreate` schema, whose validator accepts a list exactly when it is
nonempty and free of duplicate
`(order_id, design_number, ground_color_name)` keys. -/
theorem c7_empty_and_duplicate_validation (db : DB) (req : LotCreateFromSets)
    (now : Nat) (v : List LotAllocationItem)
    (hempty : req.design_allocations = []) :
    lotCreateFromSetsSchemaOk req = false ∧
    create_lot_from_sets_endpoint db req now =
      (.error .schemaValidation, db) ∧
    lotCreateAllocationsOk [] = false ∧
    (lotCreateAllocationsOk v = true ↔
      v ≠ [] ∧ (v.map (fun a =>
        (a.order_id, a.design_number, a.ground_color_name))).Nodup) := by
  have hschema : lotCreateFromSetsSchemaOk req = false := by
    unfold lotCreateFromSetsSchemaOk
    rw [hempty]
    simp
  refine ⟨hschema, ?_, rfl, ?_⟩
  · unfold create_lot_from_sets_endpoint
    rw [hschema]
    simp
  · unfold lotCreateAllocationsOk
    rw [Bool.and_eq_true]
    constructor
    · rintro ⟨hne, hdup⟩
      refine ⟨by simpa using hne, ?_⟩
      clear hne
      induction v with
      | nil => simp
      | cons a rest ih =>
          unfold allocationsDuplicateFree at hdup
          rw [Bool.and_eq_true] at hdup
          rw [List.map_cons, List.nodup_cons]
          refine ⟨?_, ih hdup.2⟩
          intro hmem
          obtain ⟨b, hb, hkey⟩ := List.mem_map.mp hmem
          have : rest.any (fun b => b.order_id == a.order_id &&
              b.design_number == a.design_number &&
              b.ground_color_name == a.ground_color_name) = true := by
            rw [List.any_eq_true]
            refine ⟨b, hb, ?_⟩
            have h1 : b.order_id = a.order_id := congrArg Prod.fst hkey
            have h23 := congrArg Prod.snd hkey
            have h2 : b.design_number = a.design_number :=
              congrArg Prod.fst h23
            have h3 : b.ground_color_name = a.ground_color_name :=
              congrArg Prod.snd h23
            simp [h1, h2, h3]
          simp [this] at hdup
    · rintro ⟨hne, hdup⟩
      refine ⟨by simpa using hne, ?_⟩
      clear hne
      induction v with
      | nil => rfl
      | cons a rest ih =>
          rw [List.map_cons, List.nodup_cons] at hdup
          unfold allocationsDuplicateFree
          rw [Bool.and_eq_true]
          refine ⟨?_, ih hdup.2⟩
          rw [Bool.not_eq_true']
          rw [← Bool.not_eq_true, List.any_eq_true]
          rintro ⟨b, hb, hkey⟩
          apply hdup.1
          rw [List.mem_map]
          refine ⟨b, hb, ?_⟩
          simp only [Bool.and_eq_true, beq_iff_eq] at hkey
          rw [hkey.1.1, hkey.1.2, hkey.2]

/-- C7 witness: the concrete empty request is rejected by the schema with no
store change, and a concrete duplicate legacy allocation list is rejected by
the legacy validator. -/
def reqC7w : LotCreateFromSets :=
  { party_id := 1, quality_id := 1, lot_date := none, lot_number := "LOT-8",
    design_allocations := [], bill_number := none, actual_pieces := none,
    delivery_date := none, notes := none }

theorem c7_empty_and_duplicate_validation_witness :
    create_lot_from_sets_endpoint dbC7 reqC7w 0 =
      (.error .schemaValidation, dbC7) ∧
    lotCreateAllocationsOk
      [⟨1, "D1", "X", 1, 5⟩, ⟨1, "D1", "X", 1, 7⟩] = false :=
  ⟨(c7_empty_and_duplicate_validation dbC7 reqC7w 0 [] rfl).2.1,
    by decide⟩

/-! Lot update and delete (`LotRepository.update_lot`,
`LotRepository.delete_lot`). -/

/-- The `LotUpdate` request schema: five optional metadata fields; the
service's `exclude_none` drops absent fields, so `none` means "not part of
the update". -/
structure LotUpdate where
  bill_number : Option String
  actual_pieces : Option Int
  delivery_date : Option String
  status : Option String
  notes : Option String
  deriving Repr, DecidableEq

/-- Allowed values of `LotUpdate.status` (`validate_status`). -/
def validStatus (s : String) : Bool :=
  s == "PENDING" || s == "IN_PROGRESS" || s == "COMPLETED" || s == "DELIVERED"

/-- Field application of `LotRepository.update_lot`: each field present in
the update overwrites the row's value, `updated_at` is always rewritten. -/
def applyLotUpdate (u : LotUpdate) (now : Nat) (r : LotRegister) :
    LotRegister :=
  { r with
    bill_number := u.bill_number.or r.bill_number,
    actual_pieces := u.actual_pieces.or r.actual_pieces,
    delivery_date := u.delivery_date.or r.delivery_date,
    status := u.status.getD r.status,
    notes := u.notes.or r.notes,
    updated_at := now }

/-- `LotRepository.update_lot`: updates the metadata fields of the
`lot_register` rows matching the id (the SQL update filters on `id` only)
and reports whether a row matched; no other table is touched. -/
def update_lot (db : DB) (lot_id : Nat) (u : LotUpdate) (now : Nat) :
    Bool × DB :=
  let rows := db.lot_register.map (fun r =>
    if r.id == lot_id then applyLotUpdate u now r else r)
  let found := db.lot_register.any (fun r => r.id == lot_id)
  (found, { db with lot_register := rows })

/-- `LotRepository.delete_lot`: sets `is_active` to false (and refreshes
`updated_at`) on the `lot_register` rows matching the id, and sets
`is_active` to false on the `lot_allocations` rows of that lot; the
`lot_design_allocations` and `design_set_tracking` tables are not touched. -/
def delete_lot (db : DB) (lot_id : Nat) (now : Nat) : Bool × DB :=
  let lots := db.lot_register.map (fun r =>
    if r.id == lot_id then { r with is_active := false, updated_at := now }
    else r)
  let found := db.lot_register.any (fun r => r.id == lot_id)
  let allocs := db.lot_allocations.map (fun a =>
    if a.lot_id == lot_id then { a with is_active := false } else a)
  (found, { db with lot_register := lots, lot_allocations := allocs })

/-- C8: updateLot changes only the Lot metadata fields (bill_number,
actual_pieces, delivery_date, status, notes, plus updated_at): the Ledger,
the beam configuration and both allocation tables are untouched, every lot
row with a different id is unchanged, and even the matching row keeps its
id, lot_number, lot_date, party, quality, total_pieces and is_active. -/
theorem c8_update_lot_frame (db : DB) (lot_id : Nat) (u : LotUpdate)
    (now : Nat) :
    ((update_lot db lot_id u now).2.design_set_tracking =
        db.design_set_tracking) ∧
    ((update_lot db lot_id u now).2.design_beam_config =
        db.design_beam_config) ∧
    ((update_lot db lot_id u now).2.lot_allocations = db.lot_allocations) ∧
    ((update_lot db lot_id u now).2.lot_design_allocations =
        db.lot_design_allocations) ∧
    (∀ r ∈ (update_lot db lot_id u now).2.lot_register,
      ∃ r0 ∈ db.lot_register, r.id = r0.id ∧ r.lot_number = r0.lot_number ∧
        r.lot_date = r0.lot_date ∧ r.party_id = r0.party_id ∧
        r.quality_id = r0.quality_id ∧ r.total_pieces = r0.total_pieces ∧
        r.is_active = r0.is_active ∧ (r.id ≠ lot_id → r = r0)) := by
  refine ⟨rfl, rfl, rfl, rfl, ?_⟩
  intro r hr
  unfold update_lot at hr
  simp only [List.mem_map] at hr
  obtain ⟨r0, hr0, rfl⟩ := hr
  refine ⟨r0, hr0, ?_⟩
  by_cases h : r0.id == lot_id
  · rw [if_pos h]
    refine ⟨rfl, rfl, rfl, rfl, rfl, rfl, rfl, ?_⟩
    intro hne
    exact absurd (by simpa using h) hne
  · rw [if_neg h]
    exact ⟨rfl, rfl, rfl, rfl, rfl, rfl, rfl, fun _ => rfl⟩

/-- C8 witness: the spec's Scenario 5 — setting status to DELIVERED leaves
every Ledger row unchanged. -/
def dbC8 : DB :=
  { design_set_tracking := [⟨1, "D1", 10, 4, 6, true⟩],
    design_beam_config := [⟨1, "D1", 1, 2, true⟩],
    lot_register := [⟨1, "LOT-1", "2025-01-01", 1, 1, 12, none, none, none,
      "PENDING", none, true, 0⟩],
    lot_allocations := [],
    lot_design_allocations := [⟨1, 1, "D1", 4⟩], next_lot_id := 2 }

/-- The Scenario 5 update: only `status` is present. -/
def updC8 : LotUpdate :=
  { bill_number := none, actual_pieces := none, delivery_date := none,
    status := some "DELIVERED", notes := none }

theorem c8_update_lot_frame_witness :
    ((update_lot dbC8 1 updC8 1).2.design_set_tracking =
        dbC8.design_set_tracking) ∧
    (∀ r ∈ (update_lot dbC8 1 updC8 1).2.lot_register,
      ∃ r0 ∈ dbC8.lot_register, r.id = r0.id ∧ r.lot_number = r0.lot_number ∧
        r.lot_date = r0.lot_date ∧ r.party_id = r0.party_id ∧
        r.quality_id = r0.quality_id ∧ r.total_pieces = r0.total_pieces ∧
        r.is_active = r0.is_active ∧ (r.id ≠ 1 → r = r0)) ∧
    validStatus "DELIVERED" = true ∧
    ((update_lot dbC8 1 updC8 1).2.lot_register.map
      (fun r => r.status)) = ["DELIVERED"] :=
  ⟨(c8_update_lot_frame dbC8 1 updC8 1).1,
    (c8_update_lot_frame dbC8 1 updC8 1).2.2.2.2,
    by decide, by decide⟩

/-- Store for the C9 counterexample: a lot created through the set-based
path, so its allocation rows live in `lot_design_allocations`. -/
def dbC9 : DB :=
  { design_set_tracking := [⟨1, "D1", 10, 4, 6, true⟩],
    design_beam_config := [],
    lot_register := [⟨1, "LOT-1", "2025-01-01", 1, 1, 0, none, none, none,
      "PENDING", none, true, 0⟩],
    lot_allocations := [],
    lot_design_allocations := [⟨1, 1, "D1", 4⟩], next_lot_id := 2 }

/-- C9 counterexample: deleteLot deactivates the Lot row but does not set
`is_active` to false on all of the lot's allocation rows — the set-level
allocation row of lot 1 in `lot_design_allocations` is returned bit-for-bit
unchanged (that table is never touched and its rows carry no `is_active`
column at all), while the Ledger is indeed left unchanged. -/
theorem c9_counterexample_setlevel_rows_kept :
    (delete_lot dbC9 1 1).1 = true ∧
    ((delete_lot dbC9 1 1).2.lot_register.map (fun r => r.is_active)) =
      [false] ∧
    (delete_lot dbC9 1 1).2.lot_design_allocations =
      [⟨1, 1, "D1", 4⟩] ∧
    (delete_lot dbC9 1 1).2.design_set_tracking =
      [⟨1, "D1", 10, 4, 6, true⟩] := by
  decide

/-- C9 (amended): deleteLot sets `is_active` to false on the Lot row and on
the lot's legacy piece-level allocation rows (`lot_allocations`); its
set-level allocation rows (`lot_design_allocations`) are not touched; and
every Ledger row is unchanged — the sets consumed by the deleted lot are not
restored to `allocated_sets`/`remaining_sets`. -/
theorem c9_delete_lot_frame (db : DB) (lot_id : Nat) (now : Nat) :
    ((delete_lot db lot_id now).2.design_set_tracking =
        db.design_set_tracking) ∧
    ((delete_lot db lot_id now).2.design_beam_config =
        db.design_beam_config) ∧
    ((delete_lot db lot_id now).2.lot_design_allocations =
        db.lot_design_allocations) ∧
    (∀ r ∈ (delete_lot db lot_id now).2.lot_register,
      ∃ r0 ∈ db.lot_register,
        (r0.id = lot_id → r = { r0 with is_active := false, updated_at := now }) ∧
        (r0.id ≠ lot_id → r = r0)) ∧
    (∀ a ∈ (delete_lot db lot_id now).2.lot_allocations,
      ∃ a0 ∈ db.lot_allocations,
        (a0.lot_id = lot_id → a = { a0 with is_active := false }) ∧
        (a0.lot_id ≠ lot_id → a = a0)) := by
  refine ⟨rfl, rfl, rfl, ?_, ?_⟩
  · intro r hr
    unfold delete_lot at hr
    simp only [List.mem_map] at hr
    obtain ⟨r0, hr0, rfl⟩ := hr
    refine ⟨r0, hr0, ?_, ?_⟩
    · intro h
      rw [if_pos (by simpa using h)]
    · intro h
      rw [if_neg (by simpa using h)]
  · intro a ha
    unfold delete_lot at ha
    simp only [List.mem_map] at ha
    obtain ⟨a0, ha0, rfl⟩ := ha
    refine ⟨a0, ha0, ?_, ?_⟩
    · intro h
      rw [if_pos (by simpa using h)]
    · intro h
      rw [if_neg (by simpa using h)]

/-- C9 witness: the frame theorem applied to a store with one legacy
allocation row, which is deactivated while the Ledger stays unchanged. -/
def dbC9w : DB :=
  { design_set_tracking := [⟨1, "D1", 10, 4, 6, true⟩],
    design_beam_config := [],
    lot_register := [⟨1, "LOT-1", "2025-01-01", 1, 1, 12, none, none, none,
      "PENDING", none, true, 0⟩],
    lot_allocations := [⟨1, 1, "D1", "X", 1, 12, true⟩],
    lot_design_allocations := [], next_lot_id := 2 }

theorem c9_delete_lot_frame_witness :
    ((delete_lot dbC9w 1 1).2.design_set_tracking =
        dbC9w.design_set_tracking) ∧
    (∀ a ∈ (delete_lot dbC9w 1 1).2.lot_allocations,
      ∃ a0 ∈ dbC9w.lot_allocations,
        (a0.lot_id = 1 → a = { a0 with is_active := false }) ∧
        (a0.lot_id ≠ 1 → a = a0)) ∧
    ((delete_lot dbC9w 1 1).2.lot_allocations.map (fun a => a.is_active)) =
      [false] :=
  ⟨(c9_delete_lot_frame dbC9w 1 1).1,
    (c9_delete_lot_frame dbC9w 1 1).2.2.2.2,
    by decide⟩

/-- C10: the repository-level allocate does not require a positive quantity:
for any `n ≤ 0` (given a tracking row with nonnegative remaining) the call
succeeds, every row under the key receives `allocated_sets + n` and
`remaining_sets - n` — so a negative `n` increases `remaining_sets` and
decreases `allocated_sets` — while `allocated_sets + remaining_sets =
total_sets` is still preserved; positivity is enforced only by the request
schema's `gt=0` constraint. -/
theorem c10_repo_allows_nonpositive_allocation (db : DB) (order_id : Nat)
    (d : String) (n : Int) (t : DesignSetTracking)
    (ts : List DesignSetTracking)
    (hget : get_design_set_tracking db order_id (some d) = t :: ts)
    (hd : d.isEmpty = false) (hku : ledgerKeyUnique db) (hn : n ≤ 0)
    (hrem : 0 ≤ t.remaining_sets)
    (hsum : t.allocated_sets + t.remaining_sets = t.total_sets) :
    (update_allocated_sets db order_id d n).1 = .ok true ∧
    lotDesignAllocationSchemaOk ⟨order_id, d, n⟩ = false ∧
    ∀ t' ∈ (update_allocated_sets db order_id d n).2.design_set_tracking,
      t'.order_id = order_id → t'.design_number = d →
        t'.allocated_sets = t.allocated_sets + n ∧
        t'.remaining_sets = t.remaining_sets - n ∧
        t'.allocated_sets + t'.remaining_sets = t'.total_sets := by
  have hguard : ¬ (t.remaining_sets - n < 0) := by omega
  obtain ⟨htmem, htoid, htd, _⟩ := mem_get_design_set_tracking hd
    (by rw [hget]; exact List.mem_cons_self _ _)
  refine ⟨?_, ?_, ?_⟩
  · unfold update_allocated_sets
    rw [hget]
    have hany : db.design_set_tracking.any (fun t0 =>
        t0.order_id == order_id && t0.design_number == d) = true := by
      rw [List.any_eq_true]
      exact ⟨t, htmem, by simp [htoid, htd]⟩
    simp only [if_neg hguard, hany]
  · unfold lotDesignAllocationSchemaOk
    simp only [decide_eq_false_iff_not, not_lt]
    exact hn
  · intro t' ht' hoid' hd'
    unfold update_allocated_sets at ht'
    rw [hget] at ht'
    simp only [if_neg hguard, List.mem_map] at ht'
    obtain ⟨t0, ht0, heq⟩ := ht'
    by_cases hc : t0.order_id == order_id && t0.design_number == d
    · rw [if_pos hc] at heq
      subst heq
      simp only [Bool.and_eq_true, beq_iff_eq] at hc
      have ht0t : t0 = t := hku t0 ht0 t htmem (by rw [hc.1, htoid])
        (by rw [hc.2, htd])
      refine ⟨rfl, rfl, ?_⟩
      show t.allocated_sets + n + (t.remaining_sets - n) = t0.total_sets
      rw [ht0t]
      omega
    · rw [if_neg hc] at heq
      subst heq
      exact absurd (by simp [hoid', hd']) hc

/-- C10 witness: on a row with total 10, allocated 2, remaining 8, the
repository accepts `n = -5`: the call succeeds and drives the row to
allocated −3 (below 0) and remaining 13 (above the total), while the schema
rejects that quantity. -/
def dbC10 : DB :=
  { design_set_tracking := [⟨1, "D1", 10, 2, 8, true⟩],
    design_beam_config := [], lot_register := [], lot_allocations := [],
    lot_design_allocations := [], next_lot_id := 1 }

theorem c10_repo_allows_nonpositive_allocation_witness :
    (update_allocated_sets dbC10 1 "D1" (-5)).1 = .ok true ∧
    lotDesignAllocationSchemaOk ⟨1, "D1", -5⟩ = false ∧
    (update_allocated_sets dbC10 1 "D1" (-5)).2.design_set_tracking =
      [⟨1, "D1", 10, -3, 13, true⟩] :=
  ⟨(c10_repo_allows_nonpositive_allocation dbC10 1 "D1" (-5)
      ⟨1, "D1", 10, 2, 8, true⟩ [] (by decide) (by decide) (by decide)
      (by decide) (by decide) (by decide)).1,
    (c10_repo_allows_nonpositive_allocation dbC10 1 "D1" (-5)
      ⟨1, "D1", 10, 2, 8, true⟩ [] (by decide) (by decide) (by decide)
      (by decide) (by decide) (by decide)).2.1,
    by decide⟩

end Textile
